import Mathlib

/-!
Shallow embedding of the voice-command core of the CopilotoUltraligero
cockpit assistant (src/App.tsx): the text normalizer, the command
interpreter `processActualCommand` / `handleCommand`, and the recognition
toggle.  JavaScript strings are modelled as Lean `String` / `List Char`;
mutable React state is modelled as an explicit `St` record threaded through
the operations; the side effects `speak` / `addLog` are recorded both in the
state (`lastSpoken`, `logs`) and in an explicit event list; a JavaScript
exception (out-of-bounds element access followed by a field projection) is
modelled by the `threw` flag, with the state updates enqueued before the
throwing expression still applied, matching React's queued `setState`
semantics.  The interpreter always receives text already lowercased by
`handleCommand`, and the embedding of the lowercasing / accent handling
covers the ASCII and Spanish character ranges that the repository's data and
command vocabulary use.
-/

namespace Copiloto

/-- Substring test on char lists: `infixOf needle hay` is
`hay.includes(needle)` of JavaScript. -/
def infixOf (needle : List Char) : List Char → Bool
  | [] => needle.isEmpty
  | c :: rest => needle.isPrefixOf (c :: rest) || infixOf needle rest

/-- JavaScript `hay.includes(sub)`. -/
def jsIncludes (hay sub : String) : Bool :=
  infixOf sub.toList hay.toList

/-- Lowercasing as JavaScript `toLowerCase`, on the ASCII range plus the
accented Spanish letters appearing in the repository's data. -/
def jsToLowerChar (c : Char) : Char :=
  if 'A' ≤ c ∧ c ≤ 'Z' then Char.ofNat (c.toNat + 32)
  else if c = 'Á' then 'á'
  else if c = 'É' then 'é'
  else if c = 'Í' then 'í'
  else if c = 'Ó' then 'ó'
  else if c = 'Ú' then 'ú'
  else if c = 'Ñ' then 'ñ'
  else if c = 'Ü' then 'ü'
  else c

/-- JavaScript `s.toLowerCase()`. -/
def jsToLower (s : String) : String :=
  String.mk (s.toList.map jsToLowerChar)

/-- Uppercasing as JavaScript `toUpperCase`, same character coverage. -/
def jsToUpperChar (c : Char) : Char :=
  if 'a' ≤ c ∧ c ≤ 'z' then Char.ofNat (c.toNat - 32)
  else if c = 'á' then 'Á'
  else if c = 'é' then 'É'
  else if c = 'í' then 'Í'
  else if c = 'ó' then 'Ó'
  else if c = 'ú' then 'Ú'
  else if c = 'ñ' then 'Ñ'
  else if c = 'ü' then 'Ü'
  else c

/-- JavaScript `s.toUpperCase()`. -/
def jsToUpper (s : String) : String :=
  String.mk (s.toList.map jsToUpperChar)

/-- Whitespace trimming on a char list, both ends. -/
def trimList (l : List Char) : List Char :=
  ((l.dropWhile Char.isWhitespace).reverse.dropWhile Char.isWhitespace).reverse

/-- JavaScript `s.trim()`. -/
def jsTrim (s : String) : String :=
  String.mk (trimList s.toList)

/-- `s.normalize("NFD").replace(combining marks, "").toLowerCase()` as used
for fuzzy aerodrome matching: decomposing an accented Spanish letter and
dropping the combining mark yields the base letter. -/
def deaccentChar (c : Char) : Char :=
  if c = 'á' then 'a' else if c = 'é' then 'e' else if c = 'í' then 'i'
  else if c = 'ó' then 'o' else if c = 'ú' then 'u' else if c = 'ñ' then 'n'
  else if c = 'ü' then 'u'
  else if c = 'Á' then 'A' else if c = 'É' then 'E' else if c = 'Í' then 'I'
  else if c = 'Ó' then 'O' else if c = 'Ú' then 'U' else if c = 'Ñ' then 'N'
  else if c = 'Ü' then 'U'
  else c

/-- Diacritic-stripped lowercased form (the `normalizedCmd` of the
aerodrome branch). -/
def normNFD (s : String) : String :=
  jsToLower (String.mk (s.toList.map deaccentChar))

/-- `PHONETIC_ALPHABET[char] || char`: the fixed phonetic table (NATO words
for uppercase letters, Spanish number words for digits), unmapped characters
pass through unchanged. -/
def phoneticOr (c : Char) : String :=
  match c with
  | 'A' => "Alfa" | 'B' => "Bravo" | 'C' => "Charlie" | 'D' => "Delta"
  | 'E' => "Echo" | 'F' => "Foxtrot" | 'G' => "Golf" | 'H' => "Hotel"
  | 'I' => "India" | 'J' => "Juliett" | 'K' => "Kilo" | 'L' => "Lima"
  | 'M' => "Mike" | 'N' => "November" | 'O' => "Oscar" | 'P' => "Papa"
  | 'Q' => "Quebec" | 'R' => "Romeo" | 'S' => "Sierra" | 'T' => "Tango"
  | 'U' => "Uniform" | 'V' => "Victor" | 'W' => "Whiskey" | 'X' => "X-ray"
  | 'Y' => "Yankee" | 'Z' => "Zulu"
  | '0' => "cero" | '1' => "uno" | '2' => "dos" | '3' => "tres"
  | '4' => "cuatro" | '5' => "cinco" | '6' => "seis" | '7' => "siete"
  | '8' => "ocho" | '9' => "nueve"
  | _ => String.mk [c]

/-- `spellAeronautical` of the source: uppercase, map each character through
the phonetic table, join with single spaces. -/
def spellAeronautical (text : String) : String :=
  String.intercalate " " ((jsToUpper text).toList.map phoneticOr)

/-- `readFrequency` of the source: per-character phonetic mapping with the
decimal point read as "decimal". -/
def readFrequency (freq : String) : String :=
  String.intercalate " "
    (freq.toList.map fun c => if c = '.' then "decimal" else phoneticOr c)

/-- The per-character word of `readSlope`. -/
def slopeCharWord (c : Char) : String :=
  if c = '-' then "menos"
  else if c = '.' then "punto"
  else if c = '%' then "porciento"
  else if c = ' ' then ""
  else phoneticOr c

/-- `readSlope` of the source: per-character mapping, empty words (spaces)
filtered out as by `filter(Boolean)`, joined with single spaces. -/
def readSlope (slope : String) : String :=
  String.intercalate " " ((slope.toList.map slopeCharWord).filter (fun s => s ≠ ""))

/-- Modelled from the spec wording of the `readSlope` claim: map `-` to
"menos", `.` to "punto", `%` to "porciento", drop spaces, send every other
character through the phonetic table (unmapped characters unchanged), join
by single spaces. -/
def readSlopeSpecChar (c : Char) : Option String :=
  if c = '-' then some "menos"
  else if c = '.' then some "punto"
  else if c = '%' then some "porciento"
  else if c = ' ' then none
  else some (phoneticOr c)

/-- Spec-side formulation of `readSlope` (see `readSlopeSpecChar`). -/
def readSlopeSpec (s : String) : String :=
  String.intercalate " " (s.toList.filterMap readSlopeSpecChar)

/-- JavaScript `\w` (ASCII word character). -/
def isWordChar (c : Char) : Bool :=
  c.isAlphanum || c = '_'

/-- Global replacement of `/\bm\b/gi` by " metros": `prev` tells whether the
character preceding the current position in the original string is a word
character (regex scanning inspects the original string, not the
replacement). -/
def replaceWordM : Bool → List Char → List Char
  | _, [] => []
  | prev, c :: rest =>
    if (c = 'm' ∨ c = 'M') ∧ prev = false ∧
        (match rest with | [] => true | d :: _ => !isWordChar d) = true then
      " metros".toList ++ replaceWordM true rest
    else c :: replaceWordM (isWordChar c) rest

/-- Global replacement of `/\bft\b/gi` by " pies". -/
def replaceWordFt : Bool → List Char → List Char
  | _, [] => []
  | _, [c] => [c]
  | prev, c :: d :: rest2 =>
    if (c = 'f' ∨ c = 'F') ∧ (d = 't' ∨ d = 'T') ∧ prev = false ∧
        (match rest2 with | [] => true | e :: _ => !isWordChar e) = true then
      " pies".toList ++ replaceWordFt true rest2
    else c :: replaceWordFt (isWordChar c) (d :: rest2)

/-- `normalizeUnitsForSpeech` of the source: whole-word "m" and "ft" become
" metros" / " pies", then trim; falsy input yields the empty string. -/
def normalizeUnitsForSpeech (text : String) : String :=
  if text = "" then ""
  else jsTrim (String.mk (replaceWordFt false (replaceWordM false text.toList)))

/-- `spanishNumberToDigit` of the source: fixed Spanish cardinal words to
1..10, case-insensitively; `null` becomes `none`. -/
def spanishNumberToDigit (text : String) : Option Nat :=
  let t := jsToLower text
  if t = "uno" then some 1 else if t = "una" then some 1
  else if t = "un" then some 1
  else if t = "dos" then some 2 else if t = "tres" then some 3
  else if t = "cuatro" then some 4 else if t = "cinco" then some 5
  else if t = "seis" then some 6 else if t = "siete" then some 7
  else if t = "ocho" then some 8 else if t = "nueve" then some 9
  else if t = "diez" then some 10
  else none

/-- A checklist item (`{id, text}`). -/
structure ChecklistItem where
  id : String
  text : String
deriving DecidableEq

/-- A checklist (`{id, name, items}`). -/
structure Checklist where
  id : String
  name : String
  items : List ChecklistItem
deriving DecidableEq

/-- A route waypoint (`PuntoRuta`). -/
structure PuntoRuta where
  id : String
  name : String
  lugar : String
  heading : String
  altitude : String
  ceiling : String
  notes : String
deriving DecidableEq

/-- A flight route; `puntosRuta` is the ordered waypoint list. -/
structure Route where
  id : String
  name : String
  puntosRuta : List PuntoRuta
deriving DecidableEq

/-- A runway; the optional descriptive fields are strings with `""` for a
missing/falsy value, matching how the code only ever tests them for
truthiness. -/
structure Runway where
  id : String
  number : String
  circuit : String
  length : String
  width : String
  slope : String
  material : String
deriving DecidableEq

/-- An aerodrome. -/
structure Aerodrome where
  id : String
  code : String
  name : String
  elevation : String
  runways : List Runway
  frequencies : List String
  observations : String
deriving DecidableEq

/-- `readRunways` of the source: one spoken description per runway, joined
by ". ". -/
def readRunways (runways : List Runway) : String :=
  String.intercalate ". " (runways.map fun r =>
    let numSpelled := String.intercalate " " (r.number.toList.map phoneticOr)
    let d0 := "pista " ++ numSpelled ++ " circuito a " ++ jsToLower r.circuit
    let d1 := if r.length ≠ "" then d0 ++ ", longitud " ++ normalizeUnitsForSpeech r.length else d0
    let d2 := if r.width ≠ "" then d1 ++ ", ancho " ++ normalizeUnitsForSpeech r.width else d1
    let d3 := if r.material ≠ "" then d2 ++ ", superficie de " ++ r.material else d2
    if r.slope ≠ "" then d3 ++ ", inclinación " ++ readSlope r.slope else d3)

/-- The app mode (`AppState` of the source). -/
inductive AppMode where
  | idle
  | listening
  | checklist
  | info
deriving DecidableEq

/-- The two listening policies. -/
inductive LMode where
  | headphones
  | speaker
deriving DecidableEq

/-- Log entry kind of a `VoiceLog`. -/
inductive LogType where
  | user
  | system
deriving DecidableEq

/-- An observable side effect of one operation: a synthesized utterance or
an appended Session Log entry (identifier and timestamp of the original
`VoiceLog` are generated nondeterministically and are omitted). -/
inductive Ev where
  | speak (text : String)
  | log (text : String) (ty : LogType)
deriving DecidableEq

/-- The session state: repository snapshot (checklists as an
insertion-ordered key/value list, routes, aerodromes, active route pointer)
plus the interpreter's mutable UI state, the last-spoken reference and the
Session Log. -/
structure St where
  checklists : List (String × Checklist)
  routes : List Route
  aerodromes : List Aerodrome
  activeRouteId : String
  appState : AppMode
  activeChecklist : Option Checklist
  checklistIndex : Int
  isSpeaking : Bool
  isRecognitionEnabled : Bool
  listeningMode : LMode
  lastSpoken : String
  logs : List (String × LogType)
deriving DecidableEq

/-- Result of one operation: the post state, the emitted events in order,
whether a JavaScript exception escaped (`threw`), and whether
`processActualCommand` was invoked (`dispatched`). -/
structure Res where
  st : St
  events : List Ev
  threw : Bool
  dispatched : Bool
deriving DecidableEq

/-- First checklist (in key insertion order) whose lowercased name is
contained in the command. -/
def findChecklist (cmd : String) : List (String × Checklist) → Option Checklist
  | [] => none
  | (_, c) :: rest =>
    if jsIncludes cmd (jsToLower c.name) then some c else findChecklist cmd rest

/-- The wake token. -/
def copT : List Char := "copiloto".toList

/-- Suffix just after the first occurrence of `tok`, `none` if absent. -/
def findTok (tok : List Char) : List Char → Option (List Char)
  | [] => none
  | c :: rest =>
    if tok.isPrefixOf (c :: rest) then some ((c :: rest).drop tok.length)
    else findTok tok rest

/-- Prefix before the first occurrence of `tok` (everything if absent). -/
def takeUntilTok (tok : List Char) : List Char → List Char
  | [] => []
  | c :: rest =>
    if tok.isPrefixOf (c :: rest) then [] else c :: takeUntilTok tok rest

/-- JavaScript `s.split('copiloto')` on char lists: the segments between the
non-overlapping, leftmost-first occurrences of the token.  The fuel argument
(instantiated with the list length, an upper bound on the number of
occurrences) only makes the recursion structural. -/
def splitTokGo : Nat → List Char → List (List Char)
  | 0, s => [s]
  | fuel + 1, s =>
    match findTok copT s with
    | none => [s]
    | some r => takeUntilTok copT s :: splitTokGo fuel r

/-- JavaScript `cmd.split('copiloto')`. -/
def splitCop (s : List Char) : List (List Char) :=
  splitTokGo s.length s

/-- `cmd.split('copiloto')[1]?.trim()` of `handleCommand`. -/
def wakeAfter (cmd : String) : Option String :=
  ((splitCop cmd.toList).get? 1).map (fun l => String.mk (trimList l))

/-- The wake-word remainder when truthy: `none` stands for the JavaScript
falsy cases (`undefined` or the empty string). -/
def wakeTruthy (cmd : String) : Option String :=
  match wakeAfter cmd with
  | none => none
  | some s => if s = "" then none else some s

/-- Modelled from the claim wording for the wake-word extraction: the
trimmed text after the first occurrence of the token, including any later
occurrences of the token itself. -/
def afterFirstOcc (cmd : String) : Option String :=
  (findTok copT cmd.toList).map (fun l => String.mk (trimList l))

/-- Greedy `\s*`. -/
def skipWs (l : List Char) : List Char :=
  l.dropWhile Char.isWhitespace

/-- Match a literal, returning the remainder. -/
def matchLit (lit : List Char) (s : List Char) : Option (List Char) :=
  if lit.isPrefixOf s then some (s.drop lit.length) else none

/-- The capture group `(\d+|uno|una|un|dos|tres|cuatro|cinco|seis|siete|ocho|nueve|diez)`
tried at one position: a greedy digit run first, then the Spanish number
words in the regex's alternation order. -/
def tryNumberAt (s : List Char) : Option (List Char) :=
  let digits := s.takeWhile Char.isDigit
  if digits ≠ [] then some digits
  else
    (["uno", "una", "un", "dos", "tres", "cuatro", "cinco", "seis", "siete",
      "ocho", "nueve", "diez"].map String.toList).findSome?
      (fun w => if w.isPrefixOf s then some w else none)

/-- One attempt of `/punto\s*(?:de\s*ruta\s*)?(NUMBER)/` at a fixed
position; since `\s*` is greedy and each continuation starts with a
non-whitespace character, the only backtracking point is declining the
optional `de\s*ruta\s*` group. -/
def matchPuntoAt (s : List Char) : Option (List Char) :=
  match matchLit "punto".toList s with
  | none => none
  | some r0 =>
    let r1 := skipWs r0
    let viaGroup : Option (List Char) :=
      match matchLit "de".toList r1 with
      | none => none
      | some r2 =>
        match matchLit "ruta".toList (skipWs r2) with
        | none => none
        | some r3 => tryNumberAt (skipWs r3)
    match viaGroup with
    | some cap => some cap
    | none => tryNumberAt r1

/-- Leftmost match of the punto-ordinal regex: try every start position in
order. -/
def scanPunto : List Char → Option (List Char)
  | [] => none
  | c :: rest =>
    match matchPuntoAt (c :: rest) with
    | some cap => some cap
    | none => scanPunto rest

/-- `cmd.match(/punto\s*(?:de\s*ruta\s*)?(\d+|uno|...|diez)/i)` restricted to
the lowercase text the interpreter receives, returning the captured group. -/
def puntoNumMatch (cmd : String) : Option String :=
  (scanPunto cmd.toList).map String.mk

/-- One attempt of the prefix-removal regex `/punto\s*(?:de\s*ruta\s*)?/` at
a fixed position, returning the remainder after the match. -/
def consumePuntoPrefix (s : List Char) : Option (List Char) :=
  match matchLit "punto".toList s with
  | none => none
  | some r0 =>
    let r1 := skipWs r0
    match matchLit "de".toList r1 with
    | some r2 =>
      match matchLit "ruta".toList (skipWs r2) with
      | some r3 => some (skipWs r3)
      | none => some r1
    | none => some r1

/-- `cmd.replace(/punto\s*(?:de\s*ruta\s*)?/i, '')`: remove the first match
only. -/
def replaceFirstPunto : List Char → List Char
  | [] => []
  | c :: rest =>
    match consumePuntoPrefix (c :: rest) with
    | some rem => rem
    | none => c :: replaceFirstPunto rest

/-- `parseInt` restricted to the regex capture's value space: a number for a
pure digit run, `NaN` (`none`) otherwise. -/
def parseIntOpt (s : String) : Option Nat :=
  let l := s.toList
  if l ≠ [] ∧ l.all Char.isDigit then
    some (l.foldl (fun acc c => acc * 10 + (c.toNat - 48)) 0)
  else none

/-- The 0-based index computed from a captured ordinal:
`isNaN(parseInt(val)) ? (spanishNumberToDigit(val) || 0) - 1 : parseInt(val) - 1`. -/
def ordinalIndex (val : String) : Int :=
  match parseIntOpt val with
  | some n => (n : Int) - 1
  | none => ((spanishNumberToDigit val).getD 0 : Int) - 1

/-- The default route used when the repository has no matching and no first
route (`{ id: 'none', name: 'Sin Ruta', puntosRuta: [] }`). -/
def sinRuta : Route :=
  { id := "none", name := "Sin Ruta", puntosRuta := [] }

/-- Active-route resolution: `routes.find(id match) || routes[0] || sinRuta`. -/
def resolveRoute (routes : List Route) (activeRouteId : String) : Route :=
  ((routes.find? (fun r => r.id == activeRouteId)).getD
    ((routes.head?).getD sinRuta))

/-- Checklist-selection branch (cascade step 2).  On a match the three state
updates are enqueued before `target.items[0].text` is evaluated, so with an
empty items list the state change survives the thrown exception.  The
no-match rejection is spoken but not logged, exactly as in the source. -/
def selBranch (cmd : String) (st : St) : Res :=
  match findChecklist cmd st.checklists with
  | some target =>
    let st1 := { st with activeChecklist := some target, checklistIndex := 0,
                         appState := AppMode.checklist }
    match target.items with
    | [] => { st := st1, events := [], threw := true, dispatched := true }
    | item0 :: _ =>
      let msg := "Iniciando checklist " ++ target.name ++ ". Primer punto: " ++ item0.text
      { st := { st1 with lastSpoken := msg, logs := st1.logs ++ [(msg, LogType.system)] },
        events := [Ev.speak msg, Ev.log msg LogType.system],
        threw := false, dispatched := true }
  | none =>
    let msg := "No he reconocido esa checklist. Las opciones son: " ++
      String.intercalate ", " (st.checklists.map (fun p => p.2.name))
    { st := { st with lastSpoken := msg }, events := [Ev.speak msg],
      threw := false, dispatched := true }

/-- Checklist progression: advance on "check"/"hecho"/"siguiente".  The new
index is enqueued before `items[nextIndex]` is read, so a (state-corrupted)
negative index throws after the index update, as in the source. -/
def advanceStep (c : Checklist) (idx : Int) (st : St) : Res :=
  let nextIndex := idx + 1
  if nextIndex < (c.items.length : Int) then
    let st1 := { st with checklistIndex := nextIndex }
    match (if 0 ≤ nextIndex then c.items.get? nextIndex.toNat else none) with
    | some item =>
      { st := { st1 with lastSpoken := item.text,
                         logs := st1.logs ++ [(item.text, LogType.system)] },
        events := [Ev.speak item.text, Ev.log item.text LogType.system],
        threw := false, dispatched := true }
    | none => { st := st1, events := [], threw := true, dispatched := true }
  else
    let msg := "Checklist " ++ c.name ++ " completada."
    { st := { st with lastSpoken := msg, logs := st.logs ++ [(msg, LogType.system)],
                      appState := AppMode.idle, activeChecklist := none,
                      checklistIndex := -1 },
      events := [Ev.speak msg, Ev.log msg LogType.system],
      threw := false, dispatched := true }

/-- Checklist restart on "reiniciar"/"empezar de nuevo": the spoken and the
logged texts differ (the log inserts the checklist name). -/
def restartStep (c : Checklist) (st : St) : Res :=
  let st1 := { st with checklistIndex := 0 }
  match c.items with
  | [] => { st := st1, events := [], threw := true, dispatched := true }
  | item0 :: _ =>
    let spoken := "Reiniciando checklist. Primer punto: " ++ item0.text
    let logged := "Reiniciando checklist " ++ c.name ++ ". Primer punto: " ++ item0.text
    { st := { st1 with lastSpoken := spoken, logs := st1.logs ++ [(logged, LogType.system)] },
      events := [Ev.speak spoken, Ev.log logged LogType.system],
      threw := false, dispatched := true }

/-- The spoken detail line of a resolved waypoint. -/
def puntoDetail (w : PuntoRuta) : String :=
  "Punto de ruta " ++ w.name ++ ". Rumbo " ++ w.heading ++ " grados, Altitud " ++
    w.altitude ++ ", Techo " ++ w.ceiling ++ ". Notas: " ++ w.notes

/-- Flight-plan / waypoint branch (cascade step 4, triggers "plan de
vuelo"/"punto"/"ruta"). -/
def routeBranch (cmd : String) (st : St) : Res :=
  let currentRoute := resolveRoute st.routes st.activeRouteId
  let loadAttempt : Option Route :=
    if jsIncludes cmd "cargar" || jsIncludes cmd "seleccionar" || jsIncludes cmd "activar" then
      st.routes.find? (fun r => jsIncludes cmd (jsToLower r.name))
    else none
  match loadAttempt with
  | some targetPlan =>
    let response := "Plan de vuelo " ++ targetPlan.name ++ " cargado. Tiene " ++
      toString targetPlan.puntosRuta.length ++ " puntos de ruta."
    { st := { st with activeRouteId := targetPlan.id, lastSpoken := response,
                      logs := st.logs ++ [(response, LogType.system)] },
      events := [Ev.speak response, Ev.log response LogType.system],
      threw := false, dispatched := true }
  | none =>
    let byNum : Option PuntoRuta :=
      match puntoNumMatch cmd with
      | some val =>
        let index := ordinalIndex val
        if 0 ≤ index ∧ index < (currentRoute.puntosRuta.length : Int) then
          currentRoute.puntosRuta.get? index.toNat
        else none
      | none => none
    let targetPunto : Option PuntoRuta :=
      match byNum with
      | some w => some w
      | none =>
        let cleanCmd := jsTrim (String.mk (replaceFirstPunto cmd.toList))
        currentRoute.puntosRuta.find? (fun wp =>
          jsIncludes cleanCmd (jsToLower wp.name) || jsIncludes cmd (jsToLower wp.name))
    match targetPunto with
    | some w =>
      let response := puntoDetail w
      { st := { st with lastSpoken := response,
                        logs := st.logs ++ [(response, LogType.system)] },
        events := [Ev.speak response, Ev.log response LogType.system],
        threw := false, dispatched := true }
    | none =>
      let info := String.intercalate ", "
        (currentRoute.puntosRuta.enum.map (fun p => toString (p.1 + 1) ++ ": " ++ p.2.name))
      let spoken := "El plan " ++ currentRoute.name ++ " tiene: " ++ info ++
        ". ¿De cuál quieres detalles?"
      let logged := "Plan " ++ currentRoute.name ++ ": " ++ info
      { st := { st with lastSpoken := spoken,
                        logs := st.logs ++ [(logged, LogType.system)] },
        events := [Ev.speak spoken, Ev.log logged LogType.system],
        threw := false, dispatched := true }

/-- Aerodrome branch (cascade step 4d): diacritic-insensitive match, falling
back to the first aerodrome; with an empty repository list the fallback is
`undefined` and `aero.code` throws. -/
def aeroBranch (cmd : String) (st : St) : Res :=
  let normalizedCmd := normNFD cmd
  let targetAero := st.aerodromes.find? (fun a =>
    jsIncludes normalizedCmd (normNFD a.name) || jsIncludes normalizedCmd (jsToLower a.code))
  match (match targetAero with | some a => some a | none => st.aerodromes.head?) with
  | none => { st := st, events := [], threw := true, dispatched := true }
  | some aero =>
    let codeSpelled := spellAeronautical aero.code
    let runwaysSpelled := readRunways aero.runways
    let freqsSpelled := String.intercalate " y " (aero.frequencies.map readFrequency)
    let elevRead := normalizeUnitsForSpeech aero.elevation
    let elev := if elevRead = "" then "no especificada" else elevRead
    let response := "Aeródromo " ++ aero.name ++ ", código " ++ codeSpelled ++
      ". Elevación " ++ elev ++ ". " ++ runwaysSpelled ++ ". Frecuencias " ++
      freqsSpelled ++ ". " ++ aero.observations
    { st := { st with lastSpoken := response,
                      logs := st.logs ++ [(response, LogType.system)] },
      events := [Ev.speak response, Ev.log response LogType.system],
      threw := false, dispatched := true }

/-- Help branch (cascade step 5). -/
def helpBranch (st : St) : Res :=
  let help := "Puedes decir: Leer checklist, datos de aeródromo, plan de vuelo, repetir o cancelar."
  { st := { st with lastSpoken := help, logs := st.logs ++ [(help, LogType.system)] },
    events := [Ev.speak help, Ev.log help LogType.system],
    threw := false, dispatched := true }

/-- Cancel/stop branch (cascade step 6): `stopSpeaking` first; "cancelar"
speaks a confirmation (without logging it) and resets the checklist state,
otherwise only "Lectura detenida" is logged. -/
def cancelBranch (cmd : String) (st : St) : Res :=
  let st0 := { st with isSpeaking := false }
  if jsIncludes cmd "cancelar" then
    { st := { st0 with lastSpoken := "Operación cancelada", appState := AppMode.idle,
                       activeChecklist := none, checklistIndex := -1 },
      events := [Ev.speak "Operación cancelada"], threw := false, dispatched := true }
  else
    { st := { st0 with logs := st0.logs ++ [("Lectura detenida", LogType.system)] },
      events := [Ev.log "Lectura detenida" LogType.system],
      threw := false, dispatched := true }

/-- Repeat branch (cascade step 7): the spoken text is the last spoken
utterance; the logged text prepends "Repitiendo: "; the apology when nothing
was spoken is not logged. -/
def repeatBranch (st : St) : Res :=
  if st.lastSpoken ≠ "" then
    { st := { st with logs := st.logs ++ [("Repitiendo: " ++ st.lastSpoken, LogType.system)] },
      events := [Ev.speak st.lastSpoken, Ev.log ("Repitiendo: " ++ st.lastSpoken) LogType.system],
      threw := false, dispatched := true }
  else
    { st := { st with lastSpoken := "No hay nada que repetir." },
      events := [Ev.speak "No hay nada que repetir."], threw := false, dispatched := true }

/-- Cascade steps 4-7 plus the silent fallback, shared by the two paths that
fall through the checklist branches. -/
def dispatchRest (cmd : String) (st : St) : Res :=
  if jsIncludes cmd "plan de vuelo" || jsIncludes cmd "punto" || jsIncludes cmd "ruta" ||
      jsIncludes cmd "punto de ruta" || jsIncludes cmd "punto ruta" then
    routeBranch cmd st
  else if jsIncludes cmd "aeródromo" || jsIncludes cmd "aerodromo" || jsIncludes cmd "pistas" then
    aeroBranch cmd st
  else if jsIncludes cmd "opciones" || jsIncludes cmd "ayuda" then
    helpBranch st
  else if jsIncludes cmd "cancelar" || jsIncludes cmd "parar" ||
      jsIncludes cmd "copiloto parar" || jsIncludes cmd "silencio" then
    cancelBranch cmd st
  else if jsIncludes cmd "repetir" || jsIncludes cmd "repite" then
    repeatBranch st
  else
    { st := st, events := [], threw := false, dispatched := true }

/-- `processActualCommand` of the source: the ordered first-match-wins
cascade.  `mode`, `ac`, `idx` are the values the caller captured from the
shared state snapshot (they can lag behind `st.appState` on the wake-word
path, which sets `listening` before dispatching). -/
def processActualCommand (cmd : String) (mode : AppMode) (ac : Option Checklist)
    (idx : Int) (st : St) : Res :=
  if jsIncludes cmd "leer checklist" || jsIncludes cmd "checklist" then
    selBranch cmd st
  else
    match (if mode = AppMode.checklist then ac else none) with
    | some c =>
      if jsIncludes cmd "check" || jsIncludes cmd "hecho" || jsIncludes cmd "siguiente" then
        advanceStep c idx st
      else if jsIncludes cmd "reiniciar" || jsIncludes cmd "empezar de nuevo" then
        restartStep c st
      else dispatchRest cmd st
    | none => dispatchRest cmd st

/-- `handleCommand` of the source: speaker-mode guard, user-entry logging,
wake-word gating and dispatch.  The user log entry records the raw
transcript; the dispatched command is the lowercased, trimmed text (or the
truthy wake-word remainder). -/
def handleCommand (command : String) (st : St) : Res :=
  if st.listeningMode = LMode.speaker ∧ st.isSpeaking = true then
    { st := st, events := [], threw := false, dispatched := false }
  else
    let cmd := jsTrim (jsToLower command)
    let st0 := { st with logs := st.logs ++ [(command, LogType.user)] }
    let userEv : List Ev := [Ev.log command LogType.user]
    if jsIncludes cmd "copiloto" then
      match wakeTruthy cmd with
      | some s =>
        let stDispatch :=
          if st.appState = AppMode.idle then { st0 with appState := AppMode.listening }
          else st0
        let r := processActualCommand s st.appState st.activeChecklist st.checklistIndex stDispatch
        { st := r.st, events := userEv ++ r.events, threw := r.threw, dispatched := true }
      | none =>
        if st.appState = AppMode.idle then
          { st := { st0 with appState := AppMode.listening,
                             lastSpoken := "Copiloto a la escucha",
                             logs := st0.logs ++ [("Copiloto a la escucha", LogType.system)] },
            events := userEv ++ [Ev.speak "Copiloto a la escucha",
                                 Ev.log "Copiloto a la escucha" LogType.system],
            threw := false, dispatched := false }
        else
          let r := processActualCommand cmd st.appState st.activeChecklist st.checklistIndex st0
          { st := r.st, events := userEv ++ r.events, threw := r.threw, dispatched := true }
    else
      if st.appState = AppMode.idle then
        { st := st0, events := userEv, threw := false, dispatched := false }
      else
        let r := processActualCommand cmd st.appState st.activeChecklist st.checklistIndex st0
        { st := r.st, events := userEv ++ r.events, threw := r.threw, dispatched := true }

/-- `toggleRecognition` of the source.  Disabling resets `appState` to idle
but leaves `activeChecklist` and `checklistIndex` untouched. -/
def toggleRecognition (st : St) : St × List Ev :=
  let newState := !st.isRecognitionEnabled
  let st1 := { st with isRecognitionEnabled := newState }
  if newState then
    ({ st1 with lastSpoken := "Sistema de escucha activado",
                logs := st1.logs ++ [("Sistema de escucha activado", LogType.system)] },
     [Ev.speak "Sistema de escucha activado",
      Ev.log "Sistema de escucha activado" LogType.system])
  else
    ({ st1 with lastSpoken := "Sistema de escucha desactivado",
                logs := st1.logs ++ [("Sistema de escucha desactivado", LogType.system)],
                appState := AppMode.idle },
     [Ev.speak "Sistema de escucha desactivado",
      Ev.log "Sistema de escucha desactivado" LogType.system])

/-- The session-state invariant claimed by the spec: `appMode = checklist`
iff a checklist is active, and an active checklist's index is `-1` or within
its item range. -/
def sessionInv (st : St) : Bool :=
  match st.activeChecklist with
  | none => !(st.appState = AppMode.checklist : Bool)
  | some c =>
    (st.appState = AppMode.checklist : Bool) &&
      ((st.checklistIndex = (-1 : Int) : Bool) ||
        ((0 ≤ st.checklistIndex : Bool) && (st.checklistIndex < (c.items.length : Int) : Bool)))

/-- The seeded "Prevuelo" checklist. -/
def prevuelo : Checklist :=
  { id := "prevuelo", name := "Prevuelo",
    items := [
      { id := "1", text := "Documentación del avión a bordo" },
      { id := "2", text := "Inspección exterior general" },
      { id := "3", text := "Nivel de combustible y aceite" },
      { id := "4", text := "Mandos libres y correctos" },
      { id := "5", text := "Instrumentos de motor en arco verde" },
      { id := "6", text := "Cinturones y puertas cerradas" }] }

/-- The seeded checklist map (`CHECKLISTS` of constants), key insertion
order preserved. -/
def seedChecklists : List (String × Checklist) :=
  [("prevuelo", prevuelo),
   ("aproximacion",
    { id := "aproximacion", name := "Aproximación",
      items := [
        { id := "1", text := "Altímetro ajustado" },
        { id := "2", text := "Mezcla rica" },
        { id := "3", text := "Bomba de combustible encendida" },
        { id := "4", text := "Luces de aterrizaje encendidas" },
        { id := "5", text := "Frenos comprobados" }] }),
   ("fallo_motor",
    { id := "fallo_motor", name := "Fallo de Motor",
      items := [
        { id := "1", text := "Velocidad de planeo 65 nudos" },
        { id := "2", text := "Buscar campo para aterrizaje" },
        { id := "3", text := "Calefacción de carburador tirada" },
        { id := "4", text := "Selector de combustible en ambos" },
        { id := "5", text := "Magnetos en ambos" },
        { id := "6", text := "Mayday en 121.5 si es posible" }] }),
   ("enfermedad_piloto",
    { id := "enfermedad_piloto", name := "Enfermedad de Piloto",
      items := [
        { id := "1", text := "Acompañante toma los mandos" },
        { id := "2", text := "Mantener nivel de vuelo" },
        { id := "3", text := "Declarar emergencia" },
        { id := "4", text := "Dirigirse al aeródromo más cercano" }] }),
   ("enfermedad_acompanante",
    { id := "enfermedad_acompanante", name := "Enfermedad de Acompañante",
      items := [
        { id := "1", text := "Asegurar al acompañante" },
        { id := "2", text := "Notificar a torre o frecuencia local" },
        { id := "3", text := "Prioridad para el aterrizaje" }] })]

/-- The seeded route (`INITIAL_FLIGHT_PLANS`). -/
def seedRoutes : List Route :=
  [{ id := "1", name := "Taragudo a Sigüenza",
     puntosRuta := [
       { id := "1", name := "Punto de Salida", lugar := "Taragudo",
         heading := "090", altitude := "2000 ft", ceiling := "3500 ft",
         notes := "Salida por el sector Este, evitar zona urbana." },
       { id := "2", name := "Cerro de Hita", lugar := "Hita",
         heading := "120", altitude := "2500 ft", ceiling := "4000 ft",
         notes := "Referencia visual clara, antena en la cima." }] }]

/-- The seeded aerodromes (`INITIAL_AERODROMES`); missing optional runway
fields are the empty (falsy) string. -/
def seedAerodromes : List Aerodrome :=
  [{ id := "1", code := "LECI", name := "Casarrubios", elevation := "2000 ft",
     runways := [
       { id := "r1", number := "08", circuit := "Izquierda", length := "950m",
         width := "", slope := "", material := "Asfalto" },
       { id := "r2", number := "26", circuit := "Derecha", length := "950m",
         width := "", slope := "", material := "Asfalto" }],
     frequencies := ["123.500"],
     observations := "Frecuencia auto-información." },
   { id := "2", code := "LECU", name := "Cuatro Vientos", elevation := "2267 ft",
     runways := [
       { id := "r3", number := "09", circuit := "Izquierda", length := "1200m",
         width := "", slope := "", material := "Asfalto" },
       { id := "r4", number := "27", circuit := "Derecha", length := "1200m",
         width := "", slope := "", material := "Asfalto" }],
     frequencies := ["118.700", "121.700"],
     observations := "Control torre obligatorio." }]

/-- The session state at process start with an empty persisted store: seeded
repository, first route active, idle mode, speaker listening policy. -/
def initialSt : St :=
  { checklists := seedChecklists, routes := seedRoutes,
    aerodromes := seedAerodromes, activeRouteId := "1",
    appState := AppMode.idle, activeChecklist := none, checklistIndex := -1,
    isSpeaking := false, isRecognitionEnabled := true,
    listeningMode := LMode.speaker, lastSpoken := "", logs := [] }

/-- A repository state containing a checklist with an empty items list (such
a checklist is creatable through the checklist editor), already awake. -/
def emptyChecklistSt : St :=
  { initialSt with
    checklists := [("vacia", { id := "vacia", name := "vacia", items := [] })],
    appState := AppMode.listening }

/-- A repository state with an empty aerodrome list (loadable from a
persisted empty array), already awake. -/
def noAerodromeSt : St :=
  { initialSt with aerodromes := [], appState := AppMode.listening }

/-- A session state in checklist mode on the seeded "Prevuelo" checklist at
its first item, as produced by voice selection. -/
def chkModeSt : St :=
  { initialSt with
    appState := AppMode.checklist,
    activeChecklist := some prevuelo,
    checklistIndex := 0 }

/-- No predicate of the command cascade matches `cmd`: all branch guards of
`processActualCommand` below the checklist-progression block are false (the
progression block itself is mode-guarded). -/
def NoMatchCmd (cmd : String) : Prop :=
  (jsIncludes cmd "leer checklist" || jsIncludes cmd "checklist") = false ∧
  (jsIncludes cmd "plan de vuelo" || jsIncludes cmd "punto" || jsIncludes cmd "ruta" ||
    jsIncludes cmd "punto de ruta" || jsIncludes cmd "punto ruta") = false ∧
  (jsIncludes cmd "aeródromo" || jsIncludes cmd "aerodromo" || jsIncludes cmd "pistas") = false ∧
  (jsIncludes cmd "opciones" || jsIncludes cmd "ayuda") = false ∧
  (jsIncludes cmd "cancelar" || jsIncludes cmd "parar" || jsIncludes cmd "copiloto parar" ||
    jsIncludes cmd "silencio") = false ∧
  (jsIncludes cmd "repetir" || jsIncludes cmd "repite") = false

/-- The spoken texts that the dispatch does not log verbatim: the
checklist-rejection enumeration, the restart announcement, the waypoint
enumeration, the cancel confirmation, the repeated last utterance and the
nothing-to-repeat apology. -/
def isExcText (st : St) (t : String) : Bool :=
  ("No he reconocido esa checklist. Las opciones son: ".toList).isPrefixOf t.toList ||
  ("Reiniciando checklist. Primer punto: ".toList).isPrefixOf t.toList ||
  ("El plan ".toList).isPrefixOf t.toList ||
  t == "Operación cancelada" ||
  t == st.lastSpoken ||
  t == "No hay nada que repetir."

/-- One "siguiente" command issued against the current session state, as
`handleCommand` would dispatch it once awake: the snapshot parameters are
the current state's fields. -/
def siguienteStep (st : St) : Res :=
  processActualCommand "siguiente" st.appState st.activeChecklist st.checklistIndex st

/-- State after one "siguiente" command. -/
def siguienteSt (st : St) : St :=
  (siguienteStep st).st

/- ------------------------------------------------------------------ -/
/- Theorems                                                            -/
/- ------------------------------------------------------------------ -/

theorem phoneticOr_ne_empty (c : Char) : phoneticOr c ≠ "" := by
  unfold phoneticOr
  split
  all_goals intro h
  all_goals first
    | exact absurd h (by decide)
    | exact List.cons_ne_nil _ _ (congrArg String.data h)

theorem slopeCharWord_space : slopeCharWord ' ' = "" := by decide

theorem slopeCharWord_ne_empty (c : Char) (h : c ≠ ' ') : slopeCharWord c ≠ "" := by
  unfold slopeCharWord
  split_ifs <;> first | decide | exact phoneticOr_ne_empty c

theorem readSlopeSpecChar_eq (c : Char) :
    readSlopeSpecChar c = if c = ' ' then none else some (slopeCharWord c) := by
  unfold readSlopeSpecChar slopeCharWord
  split_ifs <;> simp_all

theorem slope_map_filter_eq_filterMap (l : List Char) :
    (l.map slopeCharWord).filter (fun s => s ≠ "") = l.filterMap readSlopeSpecChar := by
  induction l with
  | nil => rfl
  | cons c rest ih =>
    simp only [List.map_cons, List.filterMap_cons, readSlopeSpecChar_eq]
    by_cases h : c = ' '
    · subst h
      simp only [List.filter_cons, slopeCharWord_space, if_pos rfl]
      simp only [ne_eq, decide_not] at ih ⊢
      simpa using ih
    · rw [if_neg h]
      simp only [List.filter_cons]
      rw [if_pos (by simpa using slopeCharWord_ne_empty c h)]
      simp only [ne_eq, decide_not] at ih ⊢
      rw [ih]

/-- C9: `readSlope` maps its input character by character — `-` to "menos",
`.` to "punto", `%` to "porciento", spaces dropped, every other character
through the phonetic table (unmapped characters unchanged) — joined by
single spaces; in particular `readSlope "-1.5%"` is
"menos uno punto cinco porciento". -/
theorem c9_readSlope :
    readSlope "-1.5%" = "menos uno punto cinco porciento" ∧
    ∀ s : String, readSlope s = readSlopeSpec s := by
  constructor
  · rfl
  · intro s
    unfold readSlope readSlopeSpec
    rw [slope_map_filter_eq_filterMap]

/-- C7: while the listening mode is `speaker` and speech synthesis is
active, an incoming transcript is discarded entirely — no log entry, no
dispatch, and the session state is unchanged. -/
theorem c7_speaker_guard (command : String) (st : St)
    (hMode : st.listeningMode = LMode.speaker) (hSpeak : st.isSpeaking = true) :
    handleCommand command st =
      { st := st, events := [], threw := false, dispatched := false } := by
  unfold handleCommand
  rw [if_pos ⟨hMode, hSpeak⟩]

theorem c7_speaker_guard_witness :
    handleCommand "copiloto cancelar" { initialSt with isSpeaking := true } =
      { st := { initialSt with isSpeaking := true }, events := [],
        threw := false, dispatched := false } :=
  c7_speaker_guard "copiloto cancelar" { initialSt with isSpeaking := true } rfl rfl

/-- C1 counterexample: from the initial state, selecting the seeded
"Prevuelo" checklist by voice reaches an invariant-satisfying state in
checklist mode; disabling recognition from there resets `appState` to idle
without clearing `activeChecklist`, so the session-state invariant is
violated after the recognition toggle. -/
theorem c1_counterexample :
    sessionInv initialSt = true ∧
    sessionInv (handleCommand "copiloto checklist prevuelo" initialSt).st = true ∧
    (handleCommand "copiloto checklist prevuelo" initialSt).st.isRecognitionEnabled = true ∧
    sessionInv (toggleRecognition (handleCommand "copiloto checklist prevuelo" initialSt).st).1
      = false := by
  refine ⟨rfl, rfl, rfl, rfl⟩

/-- C2 counterexample: dispatching a checklist selection that matches a
checklist with an empty items list throws (`target.items[0].text`), and
dispatching an aerodrome query against an empty aerodrome list throws
(`currentAerodromes[0].code`), contradicting the claim that these handlers
are total. -/
theorem c2_counterexample :
    (handleCommand "checklist vacia" emptyChecklistSt).threw = true ∧
    (handleCommand "aerodromo" noAerodromeSt).threw = true :=
  ⟨rfl, rfl⟩

/-- C4 counterexample: "copiloto cancelar" dispatches the cancel branch,
which speaks "Operación cancelada" without appending any system log entry
for it. -/
theorem c4_counterexample :
    Ev.speak "Operación cancelada" ∈ (handleCommand "copiloto cancelar" initialSt).events ∧
    Ev.log "Operación cancelada" LogType.system ∉
      (handleCommand "copiloto cancelar" initialSt).events := by
  decide

/-- C5 counterexample: for "copiloto parar copiloto cancelar" the code's
extraction (`split('copiloto')[1]`) yields "parar" — the text between the
first and the second occurrence of the token — while the text after the
first occurrence is "parar copiloto cancelar"; observably, the dispatch
takes the stop branch ("Lectura detenida") instead of the cancel branch. -/
theorem c5_counterexample :
    wakeAfter "copiloto parar copiloto cancelar" = some "parar" ∧
    afterFirstOcc "copiloto parar copiloto cancelar" = some "parar copiloto cancelar" ∧
    ("parar" : String) ≠ "parar copiloto cancelar" ∧
    Ev.log "Lectura detenida" LogType.system ∈
      (handleCommand "copiloto parar copiloto cancelar" initialSt).events ∧
    Ev.speak "Operación cancelada" ∉
      (handleCommand "copiloto parar copiloto cancelar" initialSt).events := by
  decide

theorem findTok_some_length (s r : List Char) (h : findTok copT s = some r) :
    r.length + 1 ≤ s.length := by
  induction s with
  | nil => exact absurd h (by simp [findTok])
  | cons c rest ih =>
    unfold findTok at h
    by_cases hp : copT.isPrefixOf (c :: rest) = true
    · rw [if_pos hp] at h
      injection h with h
      subst h
      simp only [List.length_drop, List.length_cons]
      have : 0 < copT.length := by decide
      omega
    · rw [if_neg hp] at h
      have := ih h
      simp only [List.length_cons]
      omega

theorem findTok_none_takeUntil (s : List Char) (h : findTok copT s = none) :
    takeUntilTok copT s = s := by
  induction s with
  | nil => rfl
  | cons c rest ih =>
    unfold findTok at h
    unfold takeUntilTok
    by_cases hp : copT.isPrefixOf (c :: rest) = true
    · rw [if_pos hp] at h; cases h
    · rw [if_neg hp] at h
      rw [if_neg hp, ih h]

theorem splitTokGo_head (fuel : Nat) (s : List Char) (h : s.length ≤ fuel) :
    (splitTokGo fuel s).get? 0 = some (takeUntilTok copT s) := by
  cases fuel with
  | zero =>
    have hs : s = [] := List.length_eq_zero.mp (Nat.le_zero.mp h)
    subst hs
    rfl
  | succ m =>
    cases hf : findTok copT s with
    | none =>
      simp only [splitTokGo, hf]
      rw [findTok_none_takeUntil s hf]
      rfl
    | some r =>
      simp only [splitTokGo, hf]
      rfl

/-- C5 amended: for every normalized utterance containing the wake token,
the code's extraction (`split('copiloto')[1].trim()`) yields the trimmed
text *between* the first occurrence of the token and its next occurrence (or
the end of the string). -/
theorem c5_wake_extraction (cmd : String) (r : List Char)
    (h : findTok copT cmd.toList = some r) :
    wakeAfter cmd = some (String.mk (trimList (takeUntilTok copT r))) := by
  unfold wakeAfter splitCop
  have hlen := findTok_some_length _ _ h
  cases hn : cmd.toList.length with
  | zero =>
    omega
  | succ m =>
    simp only [splitTokGo, h, List.get?_cons_succ]
    rw [splitTokGo_head m r (by omega)]
    rfl

theorem c5_wake_extraction_witness :
    wakeAfter "copiloto ayuda" =
      some (String.mk (trimList (takeUntilTok copT " ayuda".toList))) :=
  c5_wake_extraction "copiloto ayuda" " ayuda".toList (by decide)

theorem matchLit_isPrefixOf (lit s r : List Char) (h : matchLit lit s = some r) :
    lit.isPrefixOf s = true := by
  unfold matchLit at h
  by_cases hp : lit.isPrefixOf s = true
  · exact hp
  · rw [if_neg hp] at h; cases h

theorem matchPuntoAt_isPrefixOf (s cap : List Char) (h : matchPuntoAt s = some cap) :
    ("punto".toList).isPrefixOf s = true := by
  unfold matchPuntoAt at h
  cases hl : matchLit "punto".toList s with
  | none => rw [hl] at h; cases h
  | some r0 => exact matchLit_isPrefixOf _ _ _ hl

theorem scanPunto_infix (l cap : List Char) (h : scanPunto l = some cap) :
    infixOf "punto".toList l = true := by
  induction l with
  | nil => exact absurd h (by simp [scanPunto])
  | cons c rest ih =>
    unfold scanPunto at h
    unfold infixOf
    cases hm : matchPuntoAt (c :: rest) with
    | some cap2 =>
      rw [matchPuntoAt_isPrefixOf _ _ hm]
      rfl
    | none =>
      rw [hm] at h
      rw [ih h, Bool.or_true]

theorem puntoNumMatch_includes (cmd : String) (v : String)
    (h : puntoNumMatch cmd = some v) : jsIncludes cmd "punto" = true := by
  unfold puntoNumMatch at h
  cases hs : scanPunto cmd.toList with
  | none => rw [hs] at h; cases h
  | some cap => exact scanPunto_infix _ _ hs

/-- C6: a command that reaches the route/waypoint branch (checklist guards
false, no active checklist, no load keyword) and whose first punto-ordinal
regex match captures a value resolving to an in-range 1-based position of
the active route selects exactly the waypoint at that position and speaks
its detail line (name, heading, altitude, ceiling, notes). -/
theorem c6_ordinal_waypoint (cmd : String) (mode : AppMode) (idx : Int) (st : St)
    (R : Route) (W : PuntoRuta) (v : String)
    (hSel : (jsIncludes cmd "leer checklist" || jsIncludes cmd "checklist") = false)
    (hRoute : st.routes.find? (fun r => r.id == st.activeRouteId) = some R)
    (hL1 : jsIncludes cmd "cargar" = false)
    (hL2 : jsIncludes cmd "seleccionar" = false)
    (hL3 : jsIncludes cmd "activar" = false)
    (hNum : puntoNumMatch cmd = some v)
    (hIdx : 0 ≤ ordinalIndex v)
    (hIdx2 : ordinalIndex v < (R.puntosRuta.length : Int))
    (hW : R.puntosRuta.get? (ordinalIndex v).toNat = some W) :
    processActualCommand cmd mode none idx st =
      { st := { st with lastSpoken := puntoDetail W,
                        logs := st.logs ++ [(puntoDetail W, LogType.system)] },
        events := [Ev.speak (puntoDetail W), Ev.log (puntoDetail W) LogType.system],
        threw := false, dispatched := true } := by
  have hPunto := puntoNumMatch_includes cmd v hNum
  unfold processActualCommand
  rw [hSel]
  simp only [Bool.false_eq_true, if_false, ite_self]
  unfold dispatchRest
  rw [hPunto]
  simp only [Bool.or_true, Bool.true_or, if_pos rfl]
  unfold routeBranch
  rw [hL1, hL2, hL3]
  simp only [Bool.or_self, Bool.false_eq_true, if_false]
  unfold resolveRoute
  rw [hRoute]
  simp only [Option.getD_some]
  rw [hNum]
  simp only [if_pos (And.intro hIdx hIdx2), hW, if_true]

theorem c6_ordinal_waypoint_witness :
    processActualCommand "punto dos" AppMode.listening none (-1) initialSt =
      { st := { initialSt with
                  lastSpoken := puntoDetail
                    { id := "2", name := "Cerro de Hita", lugar := "Hita",
                      heading := "120", altitude := "2500 ft", ceiling := "4000 ft",
                      notes := "Referencia visual clara, antena en la cima." },
                  logs := initialSt.logs ++
                    [(puntoDetail
                        { id := "2", name := "Cerro de Hita", lugar := "Hita",
                          heading := "120", altitude := "2500 ft", ceiling := "4000 ft",
                          notes := "Referencia visual clara, antena en la cima." },
                      LogType.system)] },
        events := [Ev.speak (puntoDetail
                     { id := "2", name := "Cerro de Hita", lugar := "Hita",
                       heading := "120", altitude := "2500 ft", ceiling := "4000 ft",
                       notes := "Referencia visual clara, antena en la cima." }),
                   Ev.log (puntoDetail
                     { id := "2", name := "Cerro de Hita", lugar := "Hita",
                       heading := "120", altitude := "2500 ft", ceiling := "4000 ft",
                       notes := "Referencia visual clara, antena en la cima." })
                     LogType.system],
        threw := false, dispatched := true } :=
  c6_ordinal_waypoint "punto dos" AppMode.listening (-1) initialSt
    (seedRoutes.get ⟨0, by decide⟩)
    { id := "2", name := "Cerro de Hita", lugar := "Hita",
      heading := "120", altitude := "2500 ft", ceiling := "4000 ft",
      notes := "Referencia visual clara, antena en la cima." }
    "dos" (by decide) (by decide) (by decide) (by decide) (by decide)
    (by decide) (by decide) (by decide) (by decide)

/-- C8: every command that reaches the cancel/stop branch stops in-progress
speech; with "cancelar" it speaks "Operación cancelada" and resets mode to
idle with the checklist cleared and index -1; with only "parar"/"silencio"
it logs "Lectura detenida" leaving mode, active checklist and index
unchanged. -/
theorem c8_cancel_stop (cmd : String) (mode : AppMode) (ac : Option Checklist)
    (idx : Int) (st : St)
    (hSel : (jsIncludes cmd "leer checklist" || jsIncludes cmd "checklist") = false)
    (hProg : mode = AppMode.checklist → ac = none ∨
      ((jsIncludes cmd "check" || jsIncludes cmd "hecho" || jsIncludes cmd "siguiente") = false ∧
       (jsIncludes cmd "reiniciar" || jsIncludes cmd "empezar de nuevo") = false))
    (hRoute : (jsIncludes cmd "plan de vuelo" || jsIncludes cmd "punto" ||
      jsIncludes cmd "ruta" || jsIncludes cmd "punto de ruta" ||
      jsIncludes cmd "punto ruta") = false)
    (hAero : (jsIncludes cmd "aeródromo" || jsIncludes cmd "aerodromo" ||
      jsIncludes cmd "pistas") = false)
    (hHelp : (jsIncludes cmd "opciones" || jsIncludes cmd "ayuda") = false) :
    (jsIncludes cmd "cancelar" = true →
      processActualCommand cmd mode ac idx st =
        { st := { st with isSpeaking := false, lastSpoken := "Operación cancelada",
                          appState := AppMode.idle, activeChecklist := none,
                          checklistIndex := -1 },
          events := [Ev.speak "Operación cancelada"],
          threw := false, dispatched := true }) ∧
    (jsIncludes cmd "cancelar" = false →
      (jsIncludes cmd "parar" || jsIncludes cmd "silencio") = true →
      processActualCommand cmd mode ac idx st =
        { st := { st with isSpeaking := false,
                          logs := st.logs ++ [("Lectura detenida", LogType.system)] },
          events := [Ev.log "Lectura detenida" LogType.system],
          threw := false, dispatched := true }) := by
  have hRest : processActualCommand cmd mode ac idx st = dispatchRest cmd st := by
    unfold processActualCommand
    rw [hSel]
    simp only [Bool.false_eq_true, if_false]
    by_cases hm : mode = AppMode.checklist
    · rcases hProg hm with hNone | ⟨hAdv, hRei⟩
      · rw [if_pos hm, hNone]
      · rw [if_pos hm]
        cases ac with
        | none => rfl
        | some c =>
          simp only [hAdv, hRei, Bool.false_eq_true, if_false]
    · rw [if_neg hm]
  rw [hRest]
  unfold dispatchRest cancelBranch
  rw [hRoute, hAero, hHelp]
  constructor
  · intro hCan
    rw [hCan]
    simp
  · intro hCan hStop
    rw [hCan]
    have hp_or : jsIncludes cmd "parar" = true ∨ jsIncludes cmd "silencio" = true := by
      cases hp : jsIncludes cmd "parar" with
      | true => exact Or.inl rfl
      | false =>
        rw [hp] at hStop
        simp only [Bool.false_or] at hStop
        exact Or.inr hStop
    rcases hp_or with hp | hp <;> rw [hp] <;> simp

theorem c8_cancel_stop_witness :
    processActualCommand "cancelar" AppMode.checklist (some prevuelo) 0 chkModeSt =
      { st := { chkModeSt with isSpeaking := false, lastSpoken := "Operación cancelada",
                               appState := AppMode.idle, activeChecklist := none,
                               checklistIndex := -1 },
        events := [Ev.speak "Operación cancelada"],
        threw := false, dispatched := true } :=
  (c8_cancel_stop "cancelar" AppMode.checklist (some prevuelo) 0 chkModeSt
    (by decide) (fun _ => Or.inr ⟨by decide, by decide⟩)
    (by decide) (by decide) (by decide)).1 (by decide)

theorem dispatch_nomatch (cmd : String) (mode : AppMode) (ac : Option Checklist)
    (idx : Int) (st : St) (hm : mode ≠ AppMode.checklist) (h : NoMatchCmd cmd) :
    processActualCommand cmd mode ac idx st =
      { st := st, events := [], threw := false, dispatched := true } := by
  obtain ⟨h1, h2, h3, h4, h5, h6⟩ := h
  unfold processActualCommand
  rw [h1]
  simp only [Bool.false_eq_true, if_false, if_neg hm]
  unfold dispatchRest
  rw [h2, h3, h4, h5, h6]
  simp only [Bool.false_eq_true, if_false]

/-- C10: an utterance received while idle that contains the wake token
followed by non-empty text switches the mode to `listening` before the
trailing text is dispatched; even when the trailing text matches no cascade
predicate the system stays awake, and any subsequent wake-word-free
utterance is dispatched (provided the speaker-mode guard passes, which it
does since speaking state is unchanged). -/
theorem c10_wake_then_awake (u : String) (st : St) (s : String)
    (hSpeak : st.isSpeaking = false)
    (hIdle : st.appState = AppMode.idle)
    (hWake : jsIncludes (jsTrim (jsToLower u)) "copiloto" = true)
    (hAfter : wakeTruthy (jsTrim (jsToLower u)) = some s)
    (hNo : NoMatchCmd s) :
    (handleCommand u st).st.appState = AppMode.listening ∧
    (∀ u2 : String, (handleCommand u2 (handleCommand u st).st).dispatched = true) := by
  have hGuard : ¬(st.listeningMode = LMode.speaker ∧ st.isSpeaking = true) := by
    rintro ⟨_, hs⟩
    rw [hSpeak] at hs
    cases hs
  have hEq : handleCommand u st =
      { st := { st with appState := AppMode.listening,
                        logs := st.logs ++ [(u, LogType.user)] },
        events := [Ev.log u LogType.user], threw := false, dispatched := true } := by
    unfold handleCommand
    rw [if_neg hGuard]
    simp only [hWake, hAfter, hIdle, if_true]
    rw [dispatch_nomatch s AppMode.idle st.activeChecklist st.checklistIndex _
      (by intro hc; cases hc) hNo]
    simp
  rw [hEq]
  refine ⟨rfl, ?_⟩
  intro u2
  unfold handleCommand
  rw [if_neg (by rintro ⟨_, hs⟩; rw [hSpeak] at hs; cases hs)]
  by_cases hW2 : jsIncludes (jsTrim (jsToLower u2)) "copiloto" = true
  · simp only [hW2, if_true]
    cases hT : wakeTruthy (jsTrim (jsToLower u2)) with
    | some s2 => rfl
    | none =>
      simp only [hT]
      rw [if_neg (by intro hc; cases hc)]
  · simp only [hW2, Bool.false_eq_true, if_false]
    rw [if_neg (by intro hc; cases hc)]

theorem c10_wake_then_awake_witness :
    (handleCommand "copiloto hola" initialSt).st.appState = AppMode.listening :=
  (c10_wake_then_awake "copiloto hola" initialSt "hola" rfl rfl (by decide) (by decide)
    ⟨by decide, by decide, by decide, by decide, by decide, by decide⟩).1

theorem siguienteSt_apply (x : St) : siguienteSt x = (siguienteStep x).st := rfl

theorem siguienteStep_eq_advance (st : St) (C : Checklist)
    (hMode : st.appState = AppMode.checklist) (hAC : st.activeChecklist = some C) :
    siguienteStep st = advanceStep C st.checklistIndex st := by
  unfold siguienteStep processActualCommand
  rw [hMode, hAC]
  rw [(by decide :
    (jsIncludes "siguiente" "leer checklist" || jsIncludes "siguiente" "checklist") = false)]
  simp only [Bool.false_eq_true, if_false, if_pos rfl]
  rw [(by decide :
    (jsIncludes "siguiente" "check" || jsIncludes "siguiente" "hecho" ||
      jsIncludes "siguiente" "siguiente") = true)]
  simp only [if_true]

theorem advanceStep_lt (C : Checklist) (k : Nat) (st : St) (it : ChecklistItem)
    (hLt : k + 1 < C.items.length) (hit : C.items.get? (k + 1) = some it) :
    advanceStep C (k : Int) st =
      { st := { st with checklistIndex := (k : Int) + 1, lastSpoken := it.text,
                        logs := st.logs ++ [(it.text, LogType.system)] },
        events := [Ev.speak it.text, Ev.log it.text LogType.system],
        threw := false, dispatched := true } := by
  have h1 : ((k : Int) + 1) < (C.items.length : Int) := by exact_mod_cast hLt
  have h2 : (0 : Int) ≤ (k : Int) + 1 := by omega
  have h3 : ((k : Int) + 1).toNat = k + 1 := by omega
  simp only [advanceStep, if_pos h1, if_pos h2, h3, hit]

theorem advanceStep_complete (C : Checklist) (idx : Int) (st : St)
    (hGe : ¬(idx + 1 < (C.items.length : Int))) :
    advanceStep C idx st =
      { st := { st with
                  lastSpoken := "Checklist " ++ C.name ++ " completada.",
                  logs := st.logs ++
                    [("Checklist " ++ C.name ++ " completada.", LogType.system)],
                  appState := AppMode.idle, activeChecklist := none,
                  checklistIndex := -1 },
        events := [Ev.speak ("Checklist " ++ C.name ++ " completada."),
                   Ev.log ("Checklist " ++ C.name ++ " completada.") LogType.system],
        threw := false, dispatched := true } := by
  simp only [advanceStep, if_neg hGe]

theorem siguiente_iter_state (C : Checklist) (st : St)
    (hMode : st.appState = AppMode.checklist) (hAC : st.activeChecklist = some C)
    (hIdx : st.checklistIndex = 0) :
    ∀ k, k < C.items.length →
      (siguienteSt^[k] st).appState = AppMode.checklist ∧
      (siguienteSt^[k] st).activeChecklist = some C ∧
      (siguienteSt^[k] st).checklistIndex = (k : Int) := by
  intro k
  induction k with
  | zero =>
    intro _
    exact ⟨hMode, hAC, by simpa using hIdx⟩
  | succ n ih =>
    intro hlt
    obtain ⟨h1, h2, h3⟩ := ih (Nat.lt_of_succ_lt hlt)
    have hit : C.items.get? (n + 1) = some (C.items.get ⟨n + 1, hlt⟩) :=
      List.get?_eq_get hlt
    rw [Function.iterate_succ_apply', siguienteSt_apply]
    rw [siguienteStep_eq_advance _ C h1 h2, h3, advanceStep_lt C n _ _ hlt hit]
    exact ⟨h1, h2, by simp⟩

/-- C3: from the state produced by selecting a non-empty checklist C
(checklist mode, active C, index 0), each of the first `C.items.length - 1`
"siguiente" commands advances the index by exactly 1 and speaks (and logs)
the item text at the new index, and issuing the command `C.items.length`
times in total ends with mode idle, no active checklist and index -1, the
final command speaking a completion message. -/
theorem c3_checklist_run (C : Checklist) (st : St)
    (hNE : C.items ≠ [])
    (hMode : st.appState = AppMode.checklist)
    (hAC : st.activeChecklist = some C)
    (hIdx : st.checklistIndex = 0) :
    (∀ k (h : k + 1 < C.items.length),
      siguienteStep (siguienteSt^[k] st) =
        { st := { (siguienteSt^[k] st) with
                    checklistIndex := (k : Int) + 1,
                    lastSpoken := (C.items.get ⟨k + 1, h⟩).text,
                    logs := (siguienteSt^[k] st).logs ++
                      [((C.items.get ⟨k + 1, h⟩).text, LogType.system)] },
          events := [Ev.speak (C.items.get ⟨k + 1, h⟩).text,
                     Ev.log (C.items.get ⟨k + 1, h⟩).text LogType.system],
          threw := false, dispatched := true }) ∧
    (siguienteSt^[C.items.length] st).appState = AppMode.idle ∧
    (siguienteSt^[C.items.length] st).activeChecklist = none ∧
    (siguienteSt^[C.items.length] st).checklistIndex = -1 ∧
    (siguienteStep (siguienteSt^[C.items.length - 1] st)).events =
      [Ev.speak ("Checklist " ++ C.name ++ " completada."),
       Ev.log ("Checklist " ++ C.name ++ " completada.") LogType.system] := by
  have hpos : 0 < C.items.length := List.length_pos.mpr hNE
  have hstate := siguiente_iter_state C st hMode hAC hIdx
  constructor
  · intro k h
    obtain ⟨h1, h2, h3⟩ := hstate k (by omega)
    rw [siguienteStep_eq_advance _ C h1 h2, h3,
      advanceStep_lt C k _ _ h (List.get?_eq_get h)]
  · obtain ⟨h1, h2, h3⟩ := hstate (C.items.length - 1) (by omega)
    have hGe : ¬(((C.items.length - 1 : Nat) : Int) + 1 < (C.items.length : Int)) := by
      omega
    have hstep : siguienteStep (siguienteSt^[C.items.length - 1] st) =
        { st := { (siguienteSt^[C.items.length - 1] st) with
                    lastSpoken := "Checklist " ++ C.name ++ " completada.",
                    logs := (siguienteSt^[C.items.length - 1] st).logs ++
                      [("Checklist " ++ C.name ++ " completada.", LogType.system)],
                    appState := AppMode.idle, activeChecklist := none,
                    checklistIndex := -1 },
          events := [Ev.speak ("Checklist " ++ C.name ++ " completada."),
                     Ev.log ("Checklist " ++ C.name ++ " completada.") LogType.system],
          threw := false, dispatched := true } := by
      rw [siguienteStep_eq_advance _ C h1 h2, h3]
      exact advanceStep_complete C _ _ hGe
    have hiter : siguienteSt^[C.items.length] st =
        siguienteSt (siguienteSt^[C.items.length - 1] st) := by
      conv_lhs => rw [(by omega : C.items.length = (C.items.length - 1) + 1)]
      rw [Function.iterate_succ_apply']
    refine ⟨?_, ?_, ?_, ?_⟩
    · rw [hiter, siguienteSt_apply, hstep]
    · rw [hiter, siguienteSt_apply, hstep]
    · rw [hiter, siguienteSt_apply, hstep]
    · rw [hstep]

theorem c3_checklist_run_witness :
    (siguienteSt^[6] chkModeSt).appState = AppMode.idle ∧
    (siguienteSt^[6] chkModeSt).activeChecklist = none ∧
    (siguienteSt^[6] chkModeSt).checklistIndex = -1 ∧
    (siguienteStep (siguienteSt^[5] chkModeSt)).events =
      [Ev.speak ("Checklist " ++ prevuelo.name ++ " completada."),
       Ev.log ("Checklist " ++ prevuelo.name ++ " completada.") LogType.system] :=
  (c3_checklist_run prevuelo chkModeSt (by decide) rfl rfl rfl).2

theorem sessionInv_some (st : St) (c : Checklist) (h : sessionInv st = true)
    (hac : st.activeChecklist = some c) :
    st.appState = AppMode.checklist ∧
      (st.checklistIndex = -1 ∨
        (0 ≤ st.checklistIndex ∧ st.checklistIndex < (c.items.length : Int))) := by
  unfold sessionInv at h
  rw [hac] at h
  simpa using h

theorem sessionInv_active_none (st : St) (h : sessionInv st = true)
    (hm : st.appState ≠ AppMode.checklist) : st.activeChecklist = none := by
  cases hac : st.activeChecklist with
  | none => rfl
  | some c => exact absurd (sessionInv_some st c h hac).1 hm

theorem findChecklist_mem (cmd : String) (l : List (String × Checklist)) (c : Checklist)
    (h : findChecklist cmd l = some c) : ∃ k, (k, c) ∈ l := by
  induction l with
  | nil => cases h
  | cons p rest ih =>
    obtain ⟨k, c2⟩ := p
    unfold findChecklist at h
    by_cases hc : jsIncludes cmd (jsToLower c2.name) = true
    · rw [if_pos hc] at h
      injection h with h
      subst h
      exact ⟨k, List.mem_cons_self _ _⟩
    · rw [if_neg hc] at h
      obtain ⟨k2, hk2⟩ := ih h
      exact ⟨k2, List.mem_cons_of_mem _ hk2⟩

theorem selBranch_inv (cmd : String) (st : St) (h : sessionInv st = true)
    (hCN : ∀ p ∈ st.checklists, (p : String × Checklist).2.items ≠ []) :
    sessionInv (selBranch cmd st).st = true := by
  simp only [selBranch]
  cases hf : findChecklist cmd st.checklists with
  | none => exact h
  | some target =>
    obtain ⟨k, hk⟩ := findChecklist_mem _ _ _ hf
    have hne := hCN _ hk
    cases hi : target.items with
    | nil => exact absurd hi hne
    | cons i0 rest =>
      unfold sessionInv
      simp [hi]

theorem selBranch_threw (cmd : String) (st : St)
    (hCN : ∀ p ∈ st.checklists, (p : String × Checklist).2.items ≠ []) :
    (selBranch cmd st).threw = false := by
  simp only [selBranch]
  cases hf : findChecklist cmd st.checklists with
  | none => rfl
  | some target =>
    obtain ⟨k, hk⟩ := findChecklist_mem _ _ _ hf
    have hne := hCN _ hk
    cases hi : target.items with
    | nil => exact absurd hi hne
    | cons i0 rest => simp [hi]

theorem advanceStep_inv (C : Checklist) (st : St) (h : sessionInv st = true)
    (hac : st.activeChecklist = some C) :
    sessionInv (advanceStep C st.checklistIndex st).st = true := by
  obtain ⟨hmode, hidx⟩ := sessionInv_some st C h hac
  unfold advanceStep
  by_cases hlt : st.checklistIndex + 1 < (C.items.length : Int)
  · rw [if_pos hlt]
    have h0 : (0 : Int) ≤ st.checklistIndex + 1 := by
      rcases hidx with h1 | ⟨h1, h2⟩ <;> omega
    rw [if_pos h0]
    have hlt2 : (st.checklistIndex + 1).toNat < C.items.length := by omega
    rw [List.get?_eq_get hlt2]
    unfold sessionInv
    simp [hac, hmode]
    omega
  · rw [if_neg hlt]
    rfl

theorem advanceStep_threw (C : Checklist) (idx : Int) (st : St) (hIdx : -1 ≤ idx) :
    (advanceStep C idx st).threw = false := by
  unfold advanceStep
  by_cases hlt : idx + 1 < (C.items.length : Int)
  · rw [if_pos hlt]
    have h0 : (0 : Int) ≤ idx + 1 := by omega
    rw [if_pos h0]
    have hlt2 : (idx + 1).toNat < C.items.length := by omega
    rw [List.get?_eq_get hlt2]
  · rw [if_neg hlt]

theorem restartStep_inv (C : Checklist) (st : St) (h : sessionInv st = true)
    (hac : st.activeChecklist = some C) (hne : C.items ≠ []) :
    sessionInv (restartStep C st).st = true := by
  have hmode := (sessionInv_some st C h hac).1
  unfold restartStep
  cases hi : C.items with
  | nil => exact absurd hi hne
  | cons i0 rest =>
    unfold sessionInv
    simp [hac, hmode, hi]

theorem restartStep_threw (C : Checklist) (st : St) (hne : C.items ≠ []) :
    (restartStep C st).threw = false := by
  unfold restartStep
  cases hi : C.items with
  | nil => exact absurd hi hne
  | cons i0 rest => rfl

theorem routeBranch_inv (cmd : String) (st : St) (h : sessionInv st = true) :
    sessionInv (routeBranch cmd st).st = true := by
  simp only [routeBranch]
  repeat' split
  all_goals exact h

theorem routeBranch_threw (cmd : String) (st : St) :
    (routeBranch cmd st).threw = false := by
  simp only [routeBranch]
  repeat' split
  all_goals rfl

theorem aeroBranch_inv (cmd : String) (st : St) (h : sessionInv st = true) :
    sessionInv (aeroBranch cmd st).st = true := by
  simp only [aeroBranch]
  repeat' split
  all_goals exact h

theorem aeroBranch_threw (cmd : String) (st : St) (hA : st.aerodromes ≠ []) :
    (aeroBranch cmd st).threw = false := by
  simp only [aeroBranch]
  cases htA : st.aerodromes.find? (fun a =>
      jsIncludes (normNFD cmd) (normNFD a.name) ||
      jsIncludes (normNFD cmd) (jsToLower a.code)) with
  | some a => rfl
  | none =>
    cases hh : st.aerodromes with
    | nil => exact absurd hh hA
    | cons a rest => rfl

theorem cancelBranch_inv (cmd : String) (st : St) (h : sessionInv st = true) :
    sessionInv (cancelBranch cmd st).st = true := by
  unfold cancelBranch
  by_cases hc : jsIncludes cmd "cancelar" = true
  · rw [if_pos hc]
    rfl
  · rw [if_neg hc]
    exact h

theorem cancelBranch_threw (cmd : String) (st : St) :
    (cancelBranch cmd st).threw = false := by
  unfold cancelBranch
  by_cases hc : jsIncludes cmd "cancelar" = true
  · rw [if_pos hc]
  · rw [if_neg hc]

theorem repeatBranch_inv (st : St) (h : sessionInv st = true) :
    sessionInv (repeatBranch st).st = true := by
  unfold repeatBranch
  by_cases hc : st.lastSpoken ≠ ""
  · rw [if_pos hc]
    exact h
  · rw [if_neg hc]
    exact h

theorem repeatBranch_threw (st : St) : (repeatBranch st).threw = false := by
  unfold repeatBranch
  by_cases hc : st.lastSpoken ≠ ""
  · rw [if_pos hc]
  · rw [if_neg hc]

theorem dispatchRest_inv (cmd : String) (st : St) (h : sessionInv st = true) :
    sessionInv (dispatchRest cmd st).st = true := by
  unfold dispatchRest
  split_ifs
  · exact routeBranch_inv cmd st h
  · exact aeroBranch_inv cmd st h
  · exact h
  · exact cancelBranch_inv cmd st h
  · exact repeatBranch_inv st h
  · exact h

theorem dispatchRest_threw (cmd : String) (st : St) (hA : st.aerodromes ≠ []) :
    (dispatchRest cmd st).threw = false := by
  unfold dispatchRest
  split_ifs
  · exact routeBranch_threw cmd st
  · exact aeroBranch_threw cmd st hA
  · rfl
  · exact cancelBranch_threw cmd st
  · exact repeatBranch_threw st
  · rfl

theorem processActualCommand_inv (cmd : String) (mode : AppMode) (st : St)
    (h : sessionInv st = true)
    (hCN : ∀ p ∈ st.checklists, (p : String × Checklist).2.items ≠ [])
    (hAN : ∀ c, st.activeChecklist = some c → c.items ≠ []) :
    sessionInv (processActualCommand cmd mode st.activeChecklist st.checklistIndex st).st
      = true := by
  unfold processActualCommand
  by_cases hsel : (jsIncludes cmd "leer checklist" || jsIncludes cmd "checklist") = true
  · rw [if_pos hsel]
    exact selBranch_inv cmd st h hCN
  · rw [if_neg hsel]
    cases hm : (if mode = AppMode.checklist then st.activeChecklist else none) with
    | none => exact dispatchRest_inv cmd st h
    | some c =>
      have hac : st.activeChecklist = some c := by
        by_cases hmc : mode = AppMode.checklist
        · rw [if_pos hmc] at hm; exact hm
        · rw [if_neg hmc] at hm; cases hm
      by_cases hadv : (jsIncludes cmd "check" || jsIncludes cmd "hecho" ||
          jsIncludes cmd "siguiente") = true
      · simp only [hadv, if_true]
        exact advanceStep_inv c st h hac
      · rw [Bool.not_eq_true] at hadv
        simp only [hadv, Bool.false_eq_true, if_false]
        by_cases hrei : (jsIncludes cmd "reiniciar" ||
            jsIncludes cmd "empezar de nuevo") = true
        · simp only [hrei, if_true]
          exact restartStep_inv c st h hac (hAN c hac)
        · rw [Bool.not_eq_true] at hrei
          simp only [hrei, Bool.false_eq_true, if_false]
          exact dispatchRest_inv cmd st h

theorem processActualCommand_threw (cmd : String) (mode : AppMode) (st : St)
    (hCN : ∀ p ∈ st.checklists, (p : String × Checklist).2.items ≠ [])
    (hAN : ∀ c, st.activeChecklist = some c → c.items ≠ [])
    (hA : st.aerodromes ≠ []) (hIdx : -1 ≤ st.checklistIndex) :
    (processActualCommand cmd mode st.activeChecklist st.checklistIndex st).threw
      = false := by
  unfold processActualCommand
  by_cases hsel : (jsIncludes cmd "leer checklist" || jsIncludes cmd "checklist") = true
  · rw [if_pos hsel]
    exact selBranch_threw cmd st hCN
  · rw [if_neg hsel]
    cases hm : (if mode = AppMode.checklist then st.activeChecklist else none) with
    | none => exact dispatchRest_threw cmd st hA
    | some c =>
      have hac : st.activeChecklist = some c := by
        by_cases hmc : mode = AppMode.checklist
        · rw [if_pos hmc] at hm; exact hm
        · rw [if_neg hmc] at hm; cases hm
      by_cases hadv : (jsIncludes cmd "check" || jsIncludes cmd "hecho" ||
          jsIncludes cmd "siguiente") = true
      · simp only [hadv, if_true]
        exact advanceStep_threw c st.checklistIndex st hIdx
      · rw [Bool.not_eq_true] at hadv
        simp only [hadv, Bool.false_eq_true, if_false]
        by_cases hrei : (jsIncludes cmd "reiniciar" ||
            jsIncludes cmd "empezar de nuevo") = true
        · simp only [hrei, if_true]
          exact restartStep_threw c st (hAN c hac)
        · rw [Bool.not_eq_true] at hrei
          simp only [hrei, Bool.false_eq_true, if_false]
          exact dispatchRest_threw cmd st hA

theorem sessionInv_of_none (st : St) (hnone : st.activeChecklist = none)
    (hm : st.appState ≠ AppMode.checklist) : sessionInv st = true := by
  unfold sessionInv
  rw [hnone]
  simpa using hm

/-- C1 amended: provided every repository checklist and the active checklist
have non-empty item lists, every command dispatch preserves the
session-state invariant; the recognition toggle preserves it when enabling
recognition or when no checklist is active (disabling while a checklist is
active violates it, see the counterexample). -/
theorem c1_inv_preserved (cmd : String) (st : St)
    (h : sessionInv st = true)
    (hCN : ∀ p ∈ st.checklists, (p : String × Checklist).2.items ≠ [])
    (hAN : ∀ c, st.activeChecklist = some c → c.items ≠ []) :
    sessionInv (handleCommand cmd st).st = true ∧
    ((st.isRecognitionEnabled = false ∨ st.activeChecklist = none) →
      sessionInv (toggleRecognition st).1 = true) := by
  constructor
  · unfold handleCommand
    by_cases hg : st.listeningMode = LMode.speaker ∧ st.isSpeaking = true
    · rw [if_pos hg]
      exact h
    · rw [if_neg hg]
      by_cases hw : jsIncludes (jsTrim (jsToLower cmd)) "copiloto" = true
      · simp only [hw, if_true]
        cases ht : wakeTruthy (jsTrim (jsToLower cmd)) with
        | some s =>
          simp only [ht]
          by_cases hidle : st.appState = AppMode.idle
          · rw [if_pos hidle]
            have hnone : st.activeChecklist = none :=
              sessionInv_active_none st h (by rw [hidle]; intro hc; cases hc)
            exact processActualCommand_inv s st.appState _
              (sessionInv_of_none _ hnone (by intro hc; cases hc)) hCN hAN
          · rw [if_neg hidle]
            exact processActualCommand_inv s st.appState _ h hCN hAN
        | none =>
          simp only [ht]
          by_cases hidle : st.appState = AppMode.idle
          · rw [if_pos hidle]
            have hnone : st.activeChecklist = none :=
              sessionInv_active_none st h (by rw [hidle]; intro hc; cases hc)
            exact sessionInv_of_none _ hnone (by intro hc; cases hc)
          · rw [if_neg hidle]
            exact processActualCommand_inv _ st.appState _ h hCN hAN
      · rw [Bool.not_eq_true] at hw
        simp only [hw, Bool.false_eq_true, if_false]
        by_cases hidle : st.appState = AppMode.idle
        · rw [if_pos hidle]
          exact h
        · rw [if_neg hidle]
          exact processActualCommand_inv _ st.appState _ h hCN hAN
  · intro hdis
    unfold toggleRecognition
    cases hb : st.isRecognitionEnabled with
    | false =>
      simp only [hb, Bool.not_false, if_true]
      exact h
    | true =>
      simp only [hb, Bool.not_true, Bool.false_eq_true, if_false]
      have hnone : st.activeChecklist = none := by
        rcases hdis with hre | hac
        · rw [hb] at hre; cases hre
        · exact hac
      exact sessionInv_of_none _ hnone (by intro hc; cases hc)

theorem c1_inv_preserved_witness :
    sessionInv (handleCommand "copiloto checklist prevuelo" initialSt).st = true :=
  (c1_inv_preserved "copiloto checklist prevuelo" initialSt (by decide)
    (by decide) (by decide)).1

/-- C2 amended: dispatching a recognized utterance never throws provided
every repository checklist and the active checklist have non-empty item
lists, the aerodrome list is non-empty, and the checklist index is at least
-1 (all of which hold in every state the UI can reach); in particular the
waypoint handler is total even with an empty waypoint list. -/
theorem c2_no_throw (cmd : String) (st : St)
    (hCN : ∀ p ∈ st.checklists, (p : String × Checklist).2.items ≠ [])
    (hAN : ∀ c, st.activeChecklist = some c → c.items ≠ [])
    (hA : st.aerodromes ≠ [])
    (hIdx : -1 ≤ st.checklistIndex) :
    (handleCommand cmd st).threw = false := by
  unfold handleCommand
  by_cases hg : st.listeningMode = LMode.speaker ∧ st.isSpeaking = true
  · rw [if_pos hg]
  · rw [if_neg hg]
    by_cases hw : jsIncludes (jsTrim (jsToLower cmd)) "copiloto" = true
    · simp only [hw, if_true]
      cases ht : wakeTruthy (jsTrim (jsToLower cmd)) with
      | some s =>
        simp only [ht]
        by_cases hidle : st.appState = AppMode.idle
        · rw [if_pos hidle]
          exact processActualCommand_threw s st.appState _ hCN hAN hA hIdx
        · rw [if_neg hidle]
          exact processActualCommand_threw s st.appState _ hCN hAN hA hIdx
      | none =>
        simp only [ht]
        by_cases hidle : st.appState = AppMode.idle
        · rw [if_pos hidle]
        · rw [if_neg hidle]
          exact processActualCommand_threw _ st.appState _ hCN hAN hA hIdx
    · rw [Bool.not_eq_true] at hw
      simp only [hw, Bool.false_eq_true, if_false]
      by_cases hidle : st.appState = AppMode.idle
      · rw [if_pos hidle]
      · rw [if_neg hidle]
        exact processActualCommand_threw _ st.appState _ hCN hAN hA hIdx

theorem c2_no_throw_witness :
    (handleCommand "copiloto checklist prevuelo" initialSt).threw = false :=
  c2_no_throw "copiloto checklist prevuelo" initialSt (by decide) (by decide)
    (by decide) (by decide)

theorem isPrefixOf_append_right (p s t : List Char) (h : p.isPrefixOf s = true) :
    p.isPrefixOf (s ++ t) = true := by
  rw [List.isPrefixOf_iff_prefix] at h ⊢
  exact h.trans (List.prefix_append _ _)

theorem strPrefix_self (p : String) : p.toList.isPrefixOf p.toList = true := by
  rw [List.isPrefixOf_iff_prefix]

theorem strPrefix_extend (p s t : String) (h : p.toList.isPrefixOf s.toList = true) :
    p.toList.isPrefixOf ((s ++ t).toList) = true := by
  have he : (s ++ t).toList = s.toList ++ t.toList := rfl
  rw [he]
  exact isPrefixOf_append_right _ _ _ h

theorem exc_rejection (st : St) (s : String) :
    isExcText st ("No he reconocido esa checklist. Las opciones son: " ++ s) = true := by
  unfold isExcText
  rw [strPrefix_extend _ _ s (strPrefix_self _)]
  rfl

theorem exc_restart (st : St) (s : String) :
    isExcText st ("Reiniciando checklist. Primer punto: " ++ s) = true := by
  unfold isExcText
  rw [strPrefix_extend _ _ s (strPrefix_self _)]
  simp

theorem exc_elplan (st : St) (a b c d : String) :
    isExcText st ("El plan " ++ a ++ b ++ c ++ d) = true := by
  unfold isExcText
  rw [strPrefix_extend _ _ d (strPrefix_extend _ _ c (strPrefix_extend _ _ b
    (strPrefix_extend _ _ a (strPrefix_self _))))]
  simp

theorem exc_cancel (st : St) : isExcText st "Operación cancelada" = true := by
  unfold isExcText
  simp

theorem exc_last (st : St) : isExcText st st.lastSpoken = true := by
  unfold isExcText
  simp

theorem exc_norepeat (st : St) : isExcText st "No hay nada que repetir." = true := by
  unfold isExcText
  simp

theorem selBranch_speak_log (cmd : String) (st : St) (t : String)
    (ht : Ev.speak t ∈ (selBranch cmd st).events) :
    Ev.log t LogType.system ∈ (selBranch cmd st).events ∨ isExcText st t = true := by
  cases hf : findChecklist cmd st.checklists with
  | none =>
    simp only [selBranch, hf, List.mem_singleton] at ht
    injection ht with ht
    subst ht
    exact Or.inr (exc_rejection st _)
  | some target =>
    cases hi : target.items with
    | nil => simp [selBranch, hf, hi] at ht
    | cons i0 rest =>
      simp only [selBranch, hf, hi] at ht ⊢
      simp at ht
      subst ht
      simp

theorem advanceStep_speak_log (C : Checklist) (idx : Int) (st : St) (t : String)
    (ht : Ev.speak t ∈ (advanceStep C idx st).events) :
    Ev.log t LogType.system ∈ (advanceStep C idx st).events ∨ isExcText st t = true := by
  unfold advanceStep at ht ⊢
  by_cases hlt : idx + 1 < (C.items.length : Int)
  · rw [if_pos hlt] at ht ⊢
    by_cases h0 : (0 : Int) ≤ idx + 1
    · rw [if_pos h0] at ht ⊢
      cases hg : C.items.get? (idx + 1).toNat with
      | none =>
        rw [hg] at ht
        simp at ht
      | some item =>
        rw [hg] at ht
        simp at ht
        subst ht
        simp
    · rw [if_neg h0] at ht ⊢
      simp at ht
  · rw [if_neg hlt] at ht ⊢
    simp at ht
    subst ht
    simp

theorem restartStep_speak_log (C : Checklist) (st : St) (t : String)
    (ht : Ev.speak t ∈ (restartStep C st).events) :
    Ev.log t LogType.system ∈ (restartStep C st).events ∨ isExcText st t = true := by
  unfold restartStep at ht ⊢
  cases hi : C.items with
  | nil => simp [hi] at ht
  | cons i0 rest =>
    simp only [hi] at ht
    simp at ht
    subst ht
    exact Or.inr (exc_restart st _)

theorem routeBranch_speak_log (cmd : String) (st : St) (t : String)
    (ht : Ev.speak t ∈ (routeBranch cmd st).events) :
    Ev.log t LogType.system ∈ (routeBranch cmd st).events ∨ isExcText st t = true := by
  simp only [routeBranch] at ht ⊢
  split at ht
  · simp at ht
    subst ht
    simp
  · split at ht
    · simp at ht
      subst ht
      simp
    · simp at ht
      subst ht
      exact Or.inr (exc_elplan st _ _ _ _)

theorem aeroBranch_speak_log (cmd : String) (st : St) (t : String)
    (ht : Ev.speak t ∈ (aeroBranch cmd st).events) :
    Ev.log t LogType.system ∈ (aeroBranch cmd st).events ∨ isExcText st t = true := by
  simp only [aeroBranch] at ht ⊢
  split at ht
  · simp at ht
  · simp at ht
    subst ht
    simp

theorem helpBranch_speak_log (st : St) (t : String)
    (ht : Ev.speak t ∈ (helpBranch st).events) :
    Ev.log t LogType.system ∈ (helpBranch st).events ∨ isExcText st t = true := by
  simp only [helpBranch] at ht ⊢
  simp at ht
  subst ht
  simp

theorem cancelBranch_speak_log (cmd : String) (st : St) (t : String)
    (ht : Ev.speak t ∈ (cancelBranch cmd st).events) :
    Ev.log t LogType.system ∈ (cancelBranch cmd st).events ∨ isExcText st t = true := by
  unfold cancelBranch at ht ⊢
  by_cases hc : jsIncludes cmd "cancelar" = true
  · rw [if_pos hc] at ht
    simp at ht
    subst ht
    exact Or.inr (exc_cancel st)
  · rw [if_neg hc] at ht
    simp at ht

theorem repeatBranch_speak_log (st : St) (t : String)
    (ht : Ev.speak t ∈ (repeatBranch st).events) :
    Ev.log t LogType.system ∈ (repeatBranch st).events ∨ isExcText st t = true := by
  unfold repeatBranch at ht ⊢
  by_cases hc : st.lastSpoken ≠ ""
  · rw [if_pos hc] at ht
    simp at ht
    subst ht
    exact Or.inr (exc_last st)
  · rw [if_neg hc] at ht
    simp at ht
    subst ht
    exact Or.inr (exc_norepeat st)

theorem dispatchRest_speak_log (cmd : String) (st : St) (t : String)
    (ht : Ev.speak t ∈ (dispatchRest cmd st).events) :
    Ev.log t LogType.system ∈ (dispatchRest cmd st).events ∨ isExcText st t = true := by
  unfold dispatchRest at ht ⊢
  split_ifs at ht ⊢
  · exact routeBranch_speak_log cmd st t ht
  · exact aeroBranch_speak_log cmd st t ht
  · exact helpBranch_speak_log st t ht
  · exact cancelBranch_speak_log cmd st t ht
  · exact repeatBranch_speak_log st t ht
  · simp at ht

theorem processActualCommand_speak_log (cmd : String) (mode : AppMode)
    (ac : Option Checklist) (idx : Int) (st : St) (t : String)
    (ht : Ev.speak t ∈ (processActualCommand cmd mode ac idx st).events) :
    Ev.log t LogType.system ∈ (processActualCommand cmd mode ac idx st).events ∨
      isExcText st t = true := by
  unfold processActualCommand at ht ⊢
  by_cases hsel : (jsIncludes cmd "leer checklist" || jsIncludes cmd "checklist") = true
  · rw [if_pos hsel] at ht ⊢
    exact selBranch_speak_log cmd st t ht
  · rw [if_neg hsel] at ht ⊢
    cases hm : (if mode = AppMode.checklist then ac else none) with
    | none =>
      simp only [hm] at ht ⊢
      exact dispatchRest_speak_log cmd st t ht
    | some c =>
      simp only [hm] at ht ⊢
      by_cases hadv : (jsIncludes cmd "check" || jsIncludes cmd "hecho" ||
          jsIncludes cmd "siguiente") = true
      · simp only [hadv, if_true] at ht ⊢
        exact advanceStep_speak_log c idx st t ht
      · rw [Bool.not_eq_true] at hadv
        simp only [hadv, Bool.false_eq_true, if_false] at ht ⊢
        by_cases hrei : (jsIncludes cmd "reiniciar" ||
            jsIncludes cmd "empezar de nuevo") = true
        · simp only [hrei, if_true] at ht ⊢
          exact restartStep_speak_log c st t ht
        · rw [Bool.not_eq_true] at hrei
          simp only [hrei, Bool.false_eq_true, if_false] at ht ⊢
          exact dispatchRest_speak_log cmd st t ht

theorem combined_speak_log (command s2 : String) (st0 : St) (mode : AppMode)
    (ac : Option Checklist) (idx : Int) (t : String)
    (htt : Ev.speak t ∈ [Ev.log command LogType.user] ++
      (processActualCommand s2 mode ac idx st0).events) :
    Ev.log t LogType.system ∈ [Ev.log command LogType.user] ++
      (processActualCommand s2 mode ac idx st0).events ∨ isExcText st0 t = true := by
  simp only [List.singleton_append, List.mem_cons] at htt ⊢
  rcases htt with heq | hmem
  · cases heq
  · rcases processActualCommand_speak_log s2 mode ac idx st0 t hmem with hl | he
    · exact Or.inl (Or.inr hl)
    · exact Or.inr he

/-- C4 amended: when the speaker-mode guard passes, the user's raw text is
the first Session Log event of the turn, and every text passed to `speak`
during dispatch is also logged verbatim as a system entry or is one of the
six exception texts (checklist rejection, restart announcement, waypoint
enumeration, cancel confirmation, repeated last utterance,
nothing-to-repeat apology) that the code logs differently or not at all. -/
theorem c4_logging (command : String) (st : St)
    (hG : st.listeningMode ≠ LMode.speaker ∨ st.isSpeaking = false) :
    (handleCommand command st).events.head? = some (Ev.log command LogType.user) ∧
    ∀ t, Ev.speak t ∈ (handleCommand command st).events →
      Ev.log t LogType.system ∈ (handleCommand command st).events ∨
        isExcText st t = true := by
  have hGuard : ¬(st.listeningMode = LMode.speaker ∧ st.isSpeaking = true) := by
    rcases hG with h1 | h2
    · rintro ⟨hc, _⟩; exact h1 hc
    · rintro ⟨_, hc⟩; rw [h2] at hc; cases hc
  unfold handleCommand
  rw [if_neg hGuard]
  by_cases hw : jsIncludes (jsTrim (jsToLower command)) "copiloto" = true
  · simp only [hw, if_true]
    cases ht : wakeTruthy (jsTrim (jsToLower command)) with
    | some s =>
      simp only [ht]
      by_cases hidle : st.appState = AppMode.idle
      · rw [if_pos hidle]
        exact ⟨rfl, fun t htt =>
          combined_speak_log command s _ st.appState st.activeChecklist
            st.checklistIndex t htt⟩
      · rw [if_neg hidle]
        exact ⟨rfl, fun t htt =>
          combined_speak_log command s _ st.appState st.activeChecklist
            st.checklistIndex t htt⟩
    | none =>
      simp only [ht]
      by_cases hidle : st.appState = AppMode.idle
      · rw [if_pos hidle]
        constructor
        · rfl
        · intro t htt
          simp at htt
          subst htt
          simp
      · rw [if_neg hidle]
        exact ⟨rfl, fun t htt =>
          combined_speak_log command _ _ st.appState st.activeChecklist
            st.checklistIndex t htt⟩
  · rw [Bool.not_eq_true] at hw
    simp only [hw, Bool.false_eq_true, if_false]
    by_cases hidle : st.appState = AppMode.idle
    · rw [if_pos hidle]
      constructor
      · rfl
      · intro t htt
        simp at htt
    · rw [if_neg hidle]
      exact ⟨rfl, fun t htt =>
        combined_speak_log command _ _ st.appState st.activeChecklist
          st.checklistIndex t htt⟩

theorem c4_logging_witness :
    (handleCommand "copiloto ayuda" initialSt).events.head? =
      some (Ev.log "copiloto ayuda" LogType.user) :=
  (c4_logging "copiloto ayuda" initialSt (Or.inr rfl)).1

end Copiloto
